import Mathlib

/-!
Verification of the transaction synchronization and persistence core of the
`dashboard` repository (an express + sqlite/postgres personal finance tracker).

The development shallowly embeds the SQLite code paths of the two server
variants that the claims cite:

* `src/unnamed/part_003` (server.impl.js): the bulk replace handler
  `POST /api/transactions`, the list/export queries, the dual-column CSV
  snapshot generator `regenerateDualCsv`, and the dedupe-and-retry unique
  index creation of the schema manager;
* `src/unnamed/part_002`: the one-time CSV importer `oneTimeCsvImport` with
  its persisted `csv_import_done` idempotency marker and the
  `POST /api/import-csv-once` endpoint.

Modelling conventions:

* JavaScript finite numbers are modelled as rationals (`ℚ`); `NaN` and
  absent/mistyped fields get their own constructors.  Binary floating point
  rounding and the `Infinity` corner of `parseFloat` are outside the model.
* The SQLite table is a list of rows plus the AUTOINCREMENT counter.
* A SQL transaction runs its statements on a draft state; `COMMIT` publishes
  the draft and an exception triggers `ROLLBACK`, which discards the draft
  and keeps the committed state.  Failure of a statement is injected through
  an explicit fault index (`runOps`).
* `INSERT OR IGNORE` skips a row that violates the CHECK constraint
  `type IN ('income','expenditure')` or the unique index on
  `(type,name,date,amount)`; it never raises.
* String functions (`split`, `trim`, `replace`) are re-implemented on
  `List Char` so that everything reduces in the kernel.
-/

/-- Decimal digit characters. -/
def digitChar (n : Nat) : Char := Char.ofNat (48 + n % 10)

/-- Digits of a natural number, most significant first (fuel-based recursion). -/
def natDecAux : Nat → Nat → List Char
  | 0, _ => []
  | fuel + 1, n => if n < 10 then [digitChar n] else natDecAux fuel (n / 10) ++ [digitChar (n % 10)]

/-- Decimal digit list of a natural number. -/
def natDec (n : Nat) : List Char := natDecAux (n + 1) n

/-- Up to `fuel` fractional decimal digits of `r / d`, dropping trailing zeros. -/
def fracDec : Nat → Nat → Nat → List Char
  | 0, _, _ => []
  | _ + 1, 0, _ => []
  | fuel + 1, r + 1, d => digitChar ((r + 1) * 10 / d) :: fracDec fuel ((r + 1) * 10 % d) d

/-- Decimal string of a rational number; abstracts the JavaScript stringification
of the stored amount (`${r.amount}`).  Only digits, a minus sign and a decimal
point can occur in it. -/
def numToCsv (q : ℚ) : String :=
  let sign := if q < 0 then "-" else ""
  let n := q.num.natAbs
  let ip := n / q.den
  let frac := fracDec 20 (n % q.den) q.den
  sign ++ String.mk (natDec ip) ++ (if frac.isEmpty then "" else "." ++ String.mk frac)

/-- Numeric value of a list of decimal digit characters (value of the digits read
left to right), as JavaScript number parsing accumulates them. -/
def natOfDigits (cs : List Char) : Nat := cs.foldl (fun a c => a * 10 + (c.toNat - 48)) 0

/-- Exponent digits after an `e`/`E` marker; an empty digit list yields exponent 0,
which coincides with JavaScript `parseFloat` stopping before an incomplete
exponent. -/
def expValue (r : List Char) : Int := (natOfDigits (r.takeWhile Char.isDigit) : Int)

/-- Exponent part of a JavaScript float literal (`e`/`E`, optional sign, digits). -/
def expOf : List Char → Int
  | c :: rest =>
    if c = 'e' ∨ c = 'E' then
      match rest with
      | '+' :: r => expValue r
      | '-' :: r => - expValue r
      | r => expValue r
    else 0
  | [] => 0

/-- Unsigned part of JavaScript `parseFloat`: longest prefix
`digits [. digits] [exponent]`; `none` models `NaN` (no digit consumed). -/
def pfUnsigned (cs : List Char) : Option ℚ :=
  let ip := cs.takeWhile Char.isDigit
  let rest1 := cs.dropWhile Char.isDigit
  let fp := match rest1 with
    | '.' :: r => r.takeWhile Char.isDigit
    | _ => []
  let rest2 := match rest1 with
    | '.' :: r => r.dropWhile Char.isDigit
    | _ => rest1
  if ip.isEmpty && fp.isEmpty then none
  else
    let sc : Int := expOf rest2 - fp.length
    some (if 0 ≤ sc then mkRat (natOfDigits (ip ++ fp) * 10 ^ sc.toNat) 1
          else mkRat (natOfDigits (ip ++ fp)) (10 ^ (- sc).toNat))

/-- JavaScript `parseFloat` on the character list of a string (whitespace skip,
optional sign, then the unsigned part).  `none` models `NaN`; the `Infinity`
literal is outside the rational model. -/
def parseFloatChars (cs : List Char) : Option ℚ :=
  match cs.dropWhile Char.isWhitespace with
  | '+' :: r => pfUnsigned r
  | '-' :: r => (pfUnsigned r).map Neg.neg
  | r => pfUnsigned r

/-- JavaScript `parseFloat` on a string. -/
def parseFloat (s : String) : Option ℚ := parseFloatChars s.data

/-- `t.amount.replace(/[^0-9.+-]/g,'')`: strip every character that is not a
digit, a dot, a plus or a minus (this removes currency symbols). -/
def cleanAmount (s : String) : String :=
  String.mk (s.data.filter (fun c => c.isDigit || c = '.' || c = '+' || c = '-'))

/-- JavaScript `s.replace(/,/g,' ')`: every comma becomes a space. -/
def replaceCommas (s : String) : String :=
  String.mk (s.data.map (fun c => if c = ',' then ' ' else c))

/-- Number of commas in a string. -/
def commaCount (s : String) : Nat := s.data.count ','

/-- JavaScript `split(sep)` for a single-character separator. -/
def splitOnChar (sep : Char) : List Char → List (List Char)
  | [] => [[]]
  | c :: rest =>
    if c = sep then [] :: splitOnChar sep rest
    else
      match splitOnChar sep rest with
      | [] => [[c]]
      | g :: gs => (c :: g) :: gs

/-- JavaScript `line.split(',')`. -/
def splitComma (s : String) : List String := (splitOnChar ',' s.data).map String.mk

/-- JavaScript `trim()` on a character list. -/
def trimChars (cs : List Char) : List Char :=
  ((cs.dropWhile Char.isWhitespace).reverse.dropWhile Char.isWhitespace).reverse

/-- JavaScript `trim()`. -/
def jsTrim (s : String) : String := String.mk (trimChars s.data)

/-- JavaScript `split(/\r?\n/)`: split at newlines and strip one carriage return
at the end of every piece (a `\r\n` pair acts as a single separator). -/
def splitLines (s : String) : List String :=
  (splitOnChar '\n' s.data).map
    (fun l => String.mk (if l.getLast? = some '\r' then l.dropLast else l))

/-- `needle` is a prefix of `hay` (character lists). -/
def startsWithChars : List Char → List Char → Bool
  | [], _ => true
  | _ :: _, [] => false
  | a :: as, b :: bs => a == b && startsWithChars as bs

/-- `needle` occurs somewhere inside `hay` (character lists). -/
def hasSubChars (needle : List Char) : List Char → Bool
  | [] => startsWithChars needle []
  | c :: t => startsWithChars needle (c :: t) || hasSubChars needle t

/-- JavaScript `hay.includes(needle)`. -/
def substrOf (needle hay : String) : Bool := hasSubChars needle.data hay.data

/-- Run a list of state transformers as one SQL transaction body, with an
injected fault: `faultAt = some k` raises an exception right before the `k`-th
statement (the transaction's `COMMIT` counts as statement `ops.length`), and
`none` on a raised exception means the draft is discarded (`ROLLBACK`). -/
def runOps {α : Type} : List (α → α) → Option Nat → α → Option α
  | _, some 0, _ => none
  | [], _, st => some st
  | f :: rest, some (k + 1), st => runOps rest (some k) (f st)
  | f :: rest, none, st => runOps rest none (f st)

/-- Apply a list of state transformers in order (fault-free transaction body). -/
def applyOps {α : Type} (ops : List (α → α)) (st : α) : α :=
  ops.foldl (fun s f => f s) st

/-! ## Data model of `src/unnamed/part_003` (server.impl.js), SQLite engine

Table `transactions (id INTEGER PRIMARY KEY AUTOINCREMENT, type TEXT NOT NULL
CHECK(type IN ('income','expenditure')), name TEXT NOT NULL, date TEXT NOT
NULL, amount REAL NOT NULL)` plus the attribution columns `created_by` and
`updated_by` added by `ALTER TABLE` (nullable). -/

/-- A stored transaction row. -/
structure Row where
  id : Nat
  type : String
  name : String
  date : String
  amount : ℚ
  created_by : Option String
  updated_by : Option String
deriving DecidableEq, Repr

/-- The SQLite database state: the rows of `transactions` in insertion order and
the AUTOINCREMENT counter (never reused, not reset by `DELETE`). -/
structure DbState where
  rows : List Row
  nextId : Nat
deriving DecidableEq, Repr

/-- The dedup tuple `(type, name, date, amount)` of the unique index. -/
abbrev TxKey := String × String × String × ℚ

/-- Key of a stored row under the unique index. -/
def rowKeyOf (r : Row) : TxKey := (r.type, r.name, r.date, r.amount)

/-- All row fields except the surrogate id. -/
def rowData (r : Row) : String × String × String × ℚ × Option String × Option String :=
  (r.type, r.name, r.date, r.amount, r.created_by, r.updated_by)

/-- The `amount` field of a client-submitted candidate: a finite number, the
number `NaN`, a string, or anything else (`undefined`, `null`, an object, ...). -/
inductive JsAmount where
  | num (q : ℚ)
  | nan
  | str (s : String)
  | absent
deriving DecidableEq, Repr

/-- A candidate element of the `transactions` array of the `POST
/api/transactions` body.  Text fields are strings (an absent field behaves like
the empty string under the handler's falsiness tests). -/
structure Candidate where
  type : String
  name : String
  date : String
  amount : JsAmount
  createdBy : Option String
  updatedBy : Option String
deriving DecidableEq, Repr

/-- `const amt = typeof t.amount === 'string' ?
parseFloat(t.amount.replace(/[^0-9.+-]/g,'')) : t.amount`, combined with the
`typeof amt !== 'number' || isNaN(amt)` test: `some q` when `amt` ends up a
(finite) number, `none` when the candidate is skipped for its amount. -/
def candAmt (c : Candidate) : Option ℚ :=
  match c.amount with
  | .num q => some q
  | .nan => none
  | .str s => parseFloat (cleanAmount s)
  | .absent => none

/-- Key a candidate would occupy in the unique index, when its amount coerces. -/
def candKey (c : Candidate) : Option TxKey :=
  (candAmt c).map (fun a => (c.type, c.name, c.date, a))

/-- `INSERT OR IGNORE INTO transactions (type, name, date, amount, created_by,
updated_by) VALUES (?,?,?,?,?,?)`: a row violating the CHECK constraint
`type IN ('income','expenditure')` or the unique index on
`(type,name,date,amount)` is silently skipped; otherwise it is appended with
the next AUTOINCREMENT id. -/
def insertOrIgnore (st : DbState) (ty nm dt : String) (a : ℚ) (cb ub : Option String) : DbState :=
  if ty = "income" ∨ ty = "expenditure" then
    if st.rows.any (fun r => decide (rowKeyOf r = (ty, nm, dt, a))) then st
    else { rows := st.rows ++ [⟨st.nextId, ty, nm, dt, a, cb, ub⟩], nextId := st.nextId + 1 }
  else st

/-- One iteration of the insert loop of the handler: compute `amt`, skip the
candidate if a field is falsy or the amount is not a finite number, otherwise
issue the `INSERT OR IGNORE`. -/
def insertCand (st : DbState) (c : Candidate) : DbState :=
  match candAmt c with
  | none => st
  | some a =>
    if c.type = "" ∨ c.name = "" ∨ c.date = "" then st
    else insertOrIgnore st c.type c.name c.date a c.createdBy c.updatedBy

/-- The whole insert loop `for (const t of transactions) ...`. -/
def runInserts (cands : List Candidate) (st : DbState) : DbState :=
  cands.foldl insertCand st

/-- The statements of the bulk-replace transaction body, in program order:
`DELETE FROM transactions` followed by one `INSERT OR IGNORE` per candidate. -/
def txnOps (cands : List Candidate) : List (DbState → DbState) :=
  (fun st => { st with rows := [] }) :: cands.map (fun c st => insertCand st c)

/-- Outcome of a `POST /api/transactions` call. -/
inductive SaveOutcome where
  /-- 200 `{status:'ok'}`. -/
  | okResp
  /-- 400 `Refusing empty save that would delete existing data ...`. -/
  | badEmpty
  /-- 500 `Failed to save transactions` after `ROLLBACK`. -/
  | serverError
deriving DecidableEq, Repr

/-- The `POST /api/transactions` handler (SQLite branch) with an injected fault
position inside the transaction.  `allowEmpty` is `process.env.ALLOW_EMPTY_SAVE
=== '1'`.  The guard runs before `BEGIN`; an exception inside the transaction is
caught, `ROLLBACK` restores the pre-call state and the response is a 500. -/
def replaceAllFaulty (allowEmpty : Bool) (cands : List Candidate) (faultAt : Option Nat)
    (st : DbState) : SaveOutcome × DbState :=
  if allowEmpty = false ∧ cands = [] ∧ 0 < st.rows.length then (.badEmpty, st)
  else
    match runOps (txnOps cands) faultAt st with
    | some stNew => (.okResp, stNew)
    | none => (.serverError, st)

/-- The fault-free `POST /api/transactions` handler (SQLite branch). -/
def replaceAll (allowEmpty : Bool) (cands : List Candidate) (st : DbState) :
    SaveOutcome × DbState :=
  replaceAllFaulty allowEmpty cands none st

/-- Row order of `GET /api/transactions`: `ORDER BY date DESC, id DESC`
(`a` comes no later than `b`). -/
def listLe (a b : Row) : Prop := b.date < a.date ∨ (b.date = a.date ∧ b.id ≤ a.id)

/-- Row order of `GET /api/transactions.csv`: `ORDER BY date ASC, id ASC`. -/
def exportLe (a b : Row) : Prop := a.date < b.date ∨ (a.date = b.date ∧ a.id ≤ b.id)

instance : DecidableRel listLe := fun a b => by unfold listLe; infer_instance
instance : DecidableRel exportLe := fun a b => by unfold exportLe; infer_instance

/-- `SELECT id,type,name,date,amount,created_by,updated_by FROM transactions
ORDER BY date DESC, id DESC` (the `GET /api/transactions` query). -/
def listTransactions (rows : List Row) : List Row := List.insertionSort listLe rows

/-- `SELECT id,type,name,date,amount,created_by,updated_by FROM transactions
ORDER BY date ASC, id ASC` (the `GET /api/transactions.csv` query). -/
def exportTransactions (rows : List Row) : List Row := List.insertionSort exportLe rows

/-- One data line of the CSV export:
`${r.type},${(r.name||'').replace(/,/g,' ')},${r.date},${r.amount},${r.created_by||''},${r.updated_by||''}`. -/
def exportCsvLine (r : Row) : String :=
  r.type ++ "," ++ replaceCommas r.name ++ "," ++ r.date ++ "," ++ numToCsv r.amount ++ "," ++
    (r.created_by.getD "") ++ "," ++ (r.updated_by.getD "")

/-- The header line of the CSV export. -/
def exportCsvHeader : String := "type,name,date,amount,created_by,updated_by"

/-- The full body of `GET /api/transactions.csv`. -/
def exportCsv (rows : List Row) : String :=
  (exportTransactions rows).foldl (fun csv r => csv ++ exportCsvLine r ++ "\n")
    (exportCsvHeader ++ "\n")

/-- `ORDER BY id ASC` (the query of `regenerateDualCsv`). -/
def idLe (a b : Row) : Prop := a.id ≤ b.id

instance : DecidableRel idLe := fun a b => by unfold idLe; infer_instance

/-- `SELECT * FROM transactions ORDER BY id ASC`. -/
def sortByIdAsc (rows : List Row) : List Row := List.insertionSort idLe rows

/-- The expenditure side of one snapshot line:
`${exp.name||''},${exp.date||''},${exp.amount!=null?exp.amount:''},,,`
(`none` plays the part of the `{}` fallback for a missing row). -/
def expPart (o : Option Row) : String :=
  ((o.map Row.name).getD "") ++ "," ++ ((o.map Row.date).getD "") ++ "," ++
    ((o.map (fun r => numToCsv r.amount)).getD "") ++ ",,,"

/-- The income side of one snapshot line:
`${inc.name||''},${inc.date||''},${inc.amount!=null?inc.amount:''},,,,,`. -/
def incPart (o : Option Row) : String :=
  ((o.map Row.name).getD "") ++ "," ++ ((o.map Row.date).getD "") ++ "," ++
    ((o.map (fun r => numToCsv r.amount)).getD "") ++ ",,,,,"

/-- The expenditure rows of the snapshot, in `id ASC` order. -/
def expList (rows : List Row) : List Row :=
  (sortByIdAsc rows).filter (fun r => r.type == "expenditure")

/-- The income rows of the snapshot, in `id ASC` order. -/
def incList (rows : List Row) : List Row :=
  (sortByIdAsc rows).filter (fun r => r.type == "income")

/-- First snapshot header line (including its newline, as in the source). -/
def dualHeader1 : String := "Expenditure,,,,,,,Income,,,,,,,\n"

/-- Second snapshot header line. -/
def dualHeader2 : String := "Name,Date,Amount,Quantity,,Name,Date,Amount,,,,,,,\n"

/-- `regenerateDualCsv`: read all rows ordered by id, partition by type, and
emit the two headers followed by one line per index up to the longer list's
length (string accumulation mirrors the `csv +=` loop of the source). -/
def regenerateDualCsv (rows : List Row) : String :=
  let sorted := sortByIdAsc rows
  let expenditures := sorted.filter (fun r => r.type == "expenditure")
  let incomes := sorted.filter (fun r => r.type == "income")
  let mx := Nat.max expenditures.length incomes.length
  (List.range mx).foldl
    (fun csv i => csv ++ (expPart expenditures[i]? ++ incPart incomes[i]?) ++ "\n")
    (dualHeader1 ++ dualHeader2)

/-- The data lines of the snapshot as a list, for stating the zip/pad shape. -/
def dualRows (rows : List Row) : List String :=
  (List.range (Nat.max (expList rows).length (incList rows).length)).map
    (fun i => expPart (expList rows)[i]? ++ incPart (incList rows)[i]?)

/-- Concatenate lines, terminating each with a newline. -/
def concatLines : List String → String
  | [] => ""
  | l :: ls => l ++ "\n" ++ concatLines ls

/-! ## Schema manager: unique index creation with dedupe-and-retry

`initDb` (Postgres branch, lines 84–95) and the startup backup branch (SQLite,
lines 382–389) run the same logic: try `CREATE UNIQUE INDEX ... ON
transactions(type,name,date,amount)`; if it fails, `DELETE FROM transactions
WHERE id NOT IN (SELECT MIN(id) FROM transactions GROUP BY
type,name,date,amount)` and retry once; a second failure is only logged. -/

/-- `CREATE UNIQUE INDEX` on `(type,name,date,amount)` succeeds exactly when no
two rows share the dedup tuple. -/
def createIndexOk (rows : List Row) : Bool := decide (rows.map rowKeyOf).Nodup

/-- `SELECT MIN(id) FROM transactions WHERE <key> = k`. -/
def groupMinId (rows : List Row) (k : TxKey) : Nat :=
  match (rows.filter (fun r => decide (rowKeyOf r = k))).map Row.id with
  | [] => 0
  | i :: is => is.foldl Nat.min i

/-- `SELECT MIN(id) FROM transactions GROUP BY type,name,date,amount`. -/
def minIdRows (rows : List Row) : List Nat :=
  (rows.map rowKeyOf).dedup.map (fun k => groupMinId rows k)

/-- `DELETE FROM transactions WHERE id NOT IN (SELECT MIN(id) ... GROUP BY
type,name,date,amount)`: keep exactly the rows whose id is one of the group
minima. -/
def dedupeRows (rows : List Row) : List Row :=
  rows.filter (fun r => decide (r.id ∈ minIdRows rows))

/-- How the dedupe-and-retry block ends. -/
inductive IxResult where
  /-- The unique index exists when the block finishes. -/
  | created
  /-- Second creation attempt failed too; the error is logged and startup
  continues. -/
  | failedLogged
deriving DecidableEq, Repr

/-- The dedupe-and-retry block around `CREATE UNIQUE INDEX`: returns the rows
left in the table, the index outcome and the number of creation attempts.  It
always returns (startup is never aborted by this block). -/
def ensureUniqueIndex (rows : List Row) : List Row × IxResult × Nat :=
  if createIndexOk rows then (rows, .created, 1)
  else
    let deduped := dedupeRows rows
    if createIndexOk deduped then (deduped, .created, 2) else (deduped, .failedLogged, 2)

/-! ## Data model of `src/unnamed/part_002`: one-time CSV importer

Table `transactions` without attribution columns and without a unique index,
plus the `settings` key-value table holding the `csv_import_done` marker. -/

/-- A stored row of the part_002 `transactions` table. -/
structure ImpRow where
  id : Nat
  type : String
  name : String
  date : String
  amount : ℚ
deriving DecidableEq, Repr

/-- The part_002 database: the `transactions` rows with the AUTOINCREMENT
counter, and the value of the persisted `settings` row with key
`csv_import_done` (`none` when that row does not exist). -/
structure ImpDb where
  rows : List ImpRow
  nextId : Nat
  marker : Option String
deriving DecidableEq, Repr

/-- `SELECT value FROM settings WHERE key = 'csv_import_done'` returned a row. -/
def hasCsvImportRun (st : ImpDb) : Bool := st.marker.isSome

/-- `INSERT OR REPLACE INTO settings (key,value) VALUES ('csv_import_done', now)`. -/
def markCsvImportRun (now : String) (st : ImpDb) : ImpDb := { st with marker := some now }

/-- `INSERT INTO transactions (type,name,date,amount) VALUES (?,?,?,?)`
(plain insert: part_002 creates no unique index). -/
def insertImp (ty nm dt : String) (a : ℚ) (st : ImpDb) : ImpDb :=
  { st with rows := st.rows ++ [⟨st.nextId, ty, nm, dt, a⟩], nextId := st.nextId + 1 }

/-- One side of an import line: columns `off`, `off+1`, `off+2` hold name, date
and amount; the side is skipped when name or date trims to empty or the
amount does not parse (`isNaN`). -/
def sideFields (cols : List String) (off : Nat) : Option (String × String × ℚ) :=
  let nm := jsTrim (cols.getD off "")
  let dt := jsTrim (cols.getD (off + 1) "")
  if nm = "" ∨ dt = "" then none
  else
    match parseFloat (jsTrim (cols.getD (off + 2) "")) with
    | some a => some (nm, dt, a)
    | none => none

/-- The inserts contributed by one data line of the CSV: a blank line yields
none; otherwise the expenditure side reads columns 0–2 and the income side
columns 5–7, each side skipped independently. -/
def lineOps (line : String) : List (ImpDb → ImpDb) :=
  if trimChars line.data = [] then []
  else
    let cols := splitComma line
    (match sideFields cols 0 with
     | some (nm, dt, a) => [insertImp "expenditure" nm dt a]
     | none => []) ++
    (match sideFields cols 5 with
     | some (nm, dt, a) => [insertImp "income" nm dt a]
     | none => [])

/-- The statements of the import transaction body, in program order:
`DELETE FROM transactions`, the per-line inserts, then the marker write. -/
def importOps (dataLines : List String) (now : String) : List (ImpDb → ImpDb) :=
  (fun st => { st with rows := [] }) :: (dataLines.flatMap lineOps ++ [markCsvImportRun now])

/-- Outcome of `oneTimeCsvImport`. -/
inductive ImportResult where
  /-- `{skipped:true, reason}`. -/
  | skipped (reason : String)
  /-- `{inserted, skipped:false}`. -/
  | imported (n : Nat)
deriving DecidableEq, Repr

/-- `oneTimeCsvImport(force)`.  `csv` is the file content (`none` when the file
does not exist), `now` the timestamp written into the marker, `errMsg` the
message of the exception injected at `faultAt` (when any).  A fault inside the
transaction rolls everything back and reports `Import failed: ...`. -/
def oneTimeCsvImport (force : Bool) (csv : Option String) (now errMsg : String)
    (faultAt : Option Nat) (st : ImpDb) : ImportResult × ImpDb :=
  if force = false ∧ hasCsvImportRun st = true then
    (.skipped "CSV import already completed previously.", st)
  else
    match csv with
    | none => (.skipped "CSV file not found.", st)
    | some raw =>
      let lines := splitLines (jsTrim raw)
      if lines.length ≤ 2 then (.skipped "CSV has no data rows.", st)
      else
        let dataLines := lines.drop 2
        match runOps (importOps dataLines now) faultAt st with
        | some stNew => (.imported (dataLines.flatMap lineOps).length, stNew)
        | none => (.skipped ("Import failed: " ++ errMsg), st)

/-- HTTP status chosen by the `POST /api/import-csv-once` handler:
409 when `result.skipped && result.reason && result.reason.includes('already')`,
otherwise the result is returned with status 200. -/
def importHttpStatus (r : ImportResult) : Nat :=
  match r with
  | .skipped reason => if reason ≠ "" ∧ substrOf "already" reason = true then 409 else 200
  | .imported _ => 200

/-- The exact condition under which the insert loop stores a candidate into an
empty slot of the unique index: the handler's falsiness/NaN checks pass and the
CHECK constraint accepts the type (otherwise `INSERT OR IGNORE` drops the row). -/
def insertable (c : Candidate) : Bool :=
  decide ((candAmt c).isSome ∧ c.type ≠ "" ∧ c.name ≠ "" ∧ c.date ≠ "" ∧
    (c.type = "income" ∨ c.type = "expenditure"))

/-- The validation clause in the spec's words: `type` non-empty and one of the
two enumerated values, `name` non-empty, `date` non-empty, `amount` coercible
to a finite number (currency symbols stripped from numeric strings first).
Stated separately from `insertable` so the two can be compared. -/
def specValidCandidate (c : Candidate) : Bool :=
  decide (c.type ≠ "" ∧ (c.type = "income" ∨ c.type = "expenditure") ∧
    c.name ≠ "" ∧ c.date ≠ "" ∧ (candAmt c).isSome)

/-- Boolean test for a row occupying key `k` of the unique index. -/
def keyPred (k : TxKey) : Row → Bool := fun r => decide (rowKeyOf r = k)

/-- Boolean test for a candidate that would be stored under key `k`. -/
def candPred (k : TxKey) : Candidate → Bool :=
  fun c => insertable c && decide (candKey c = some k)

/-- Data of the row that key `k` receives from a candidate list: the first
storable candidate with key `k` wins; `[]` when no candidate targets `k`. -/
def firstMatch (cands : List Candidate) (k : TxKey) :
    List (String × String × String × ℚ × Option String × Option String) :=
  match cands.find? (candPred k) with
  | some c => [(c.type, c.name, c.date, k.2.2.2, c.createdBy, c.updatedBy)]
  | none => []


instance : IsTotal Row exportLe := by
  constructor
  intro a b
  rcases lt_trichotomy a.date b.date with h | h | h
  · exact Or.inl (Or.inl h)
  · rcases Nat.le_total a.id b.id with h2 | h2
    · exact Or.inl (Or.inr ⟨h, h2⟩)
    · exact Or.inr (Or.inr ⟨h.symm, h2⟩)
  · exact Or.inr (Or.inl h)

instance : IsTrans Row exportLe := by
  constructor
  intro a b c hab hbc
  rcases hab with h1 | ⟨h1, h1i⟩
  · rcases hbc with h2 | ⟨h2, _⟩
    · exact Or.inl (h1.trans h2)
    · exact Or.inl (h2 ▸ h1)
  · rcases hbc with h2 | ⟨h2, h2i⟩
    · exact Or.inl (h1 ▸ h2)
    · exact Or.inr ⟨h1.trans h2, h1i.trans h2i⟩

instance : IsTotal Row listLe := by
  constructor
  intro a b
  rcases lt_trichotomy a.date b.date with h | h | h
  · exact Or.inr (Or.inl h)
  · rcases Nat.le_total a.id b.id with h2 | h2
    · exact Or.inr (Or.inr ⟨h, h2⟩)
    · exact Or.inl (Or.inr ⟨h.symm, h2⟩)
  · exact Or.inl (Or.inl h)

instance : IsTrans Row listLe := by
  constructor
  intro a b c hab hbc
  rcases hab with h1 | ⟨h1, h1i⟩
  · rcases hbc with h2 | ⟨h2, _⟩
    · exact Or.inl (h2.trans h1)
    · exact Or.inl (h2 ▸ h1)
  · rcases hbc with h2 | ⟨h2, h2i⟩
    · exact Or.inl (h1 ▸ h2)
    · exact Or.inr ⟨h2.trans h1, h2i.trans h1i⟩

instance : IsTotal Row idLe := by
  constructor
  intro a b
  exact Nat.le_total a.id b.id

instance : IsTrans Row idLe := by
  constructor
  intro a b c hab hbc
  exact Nat.le_trans hab hbc

theorem runOps_none {α : Type} (ops : List (α → α)) (st : α) :
    runOps ops none st = some (applyOps ops st) := by
  induction ops generalizing st with
  | nil => rfl
  | cons f rest ih => simp [runOps, applyOps, List.foldl_cons, ih]

theorem runOps_fault {α : Type} (ops : List (α → α)) (k : Nat) (st : α)
    (hk : k ≤ ops.length) : runOps ops (some k) st = none := by
  induction ops generalizing k st with
  | nil =>
    have h0 : k = 0 := Nat.le_zero.mp hk
    subst h0; rfl
  | cons f rest ih =>
    cases k with
    | zero => rfl
    | succ k =>
      simp only [List.length_cons, Nat.succ_le_succ_iff] at hk
      simpa [runOps] using ih k (f st) hk

theorem applyOps_txnOps (cands : List Candidate) (st : DbState) :
    applyOps (txnOps cands) st = runInserts cands { st with rows := [] } := by
  simp [applyOps, txnOps, runInserts, List.foldl_cons, List.foldl_map]

/-- Claim C2: with rows present and the override unset, `replaceAll []` is
rejected as a 400 client error and leaves the stored rows unchanged; with the
override set, the same call succeeds and empties the store. -/
theorem c2_empty_save_guard (st : DbState) :
    (0 < st.rows.length → replaceAll false [] st = (.badEmpty, st)) ∧
    replaceAll true [] st = (.okResp, { rows := [], nextId := st.nextId }) := by
  constructor
  · intro h
    simp [replaceAll, replaceAllFaulty, h]
  · simp [replaceAll, replaceAllFaulty, txnOps, runOps]

/-- Witness for C2 at a store holding one row. -/
theorem c2_empty_save_guard_witness :
    replaceAll false [] (DbState.mk [Row.mk 1 "income" "Pay" "2024-01-01" 1000 none none] 2) =
      (.badEmpty, DbState.mk [Row.mk 1 "income" "Pay" "2024-01-01" 1000 none none] 2) ∧
    replaceAll true [] (DbState.mk [Row.mk 1 "income" "Pay" "2024-01-01" 1000 none none] 2) =
      (.okResp, DbState.mk [] 2) :=
  ⟨(c2_empty_save_guard _).1 (by decide), (c2_empty_save_guard _).2⟩

/-- Claim C3: a failure raised at any statement of the bulk-replace transaction
(from the `DELETE` up to and including the `COMMIT`) rolls the whole
transaction back: the stored set after the failed call equals the stored set
before it, and the caller receives the 500 error outcome. -/
theorem c3_midtxn_failure_rolls_back (allowEmpty : Bool) (cands : List Candidate)
    (st : DbState) (k : Nat)
    (hguard : ¬(allowEmpty = false ∧ cands = [] ∧ 0 < st.rows.length))
    (hk : k ≤ (txnOps cands).length) :
    replaceAllFaulty allowEmpty cands (some k) st = (.serverError, st) := by
  simp [replaceAllFaulty, if_neg hguard, runOps_fault _ _ _ hk]

/-- Witness for C3: the fault hits the first `INSERT` of a one-candidate batch. -/
theorem c3_midtxn_failure_rolls_back_witness :
    replaceAllFaulty true [Candidate.mk "income" "Pay" "2024-01-01" (.num 1000) none none]
      (some 1) (DbState.mk [Row.mk 1 "income" "Old" "2023-12-31" 5 none none] 2) =
      (.serverError, DbState.mk [Row.mk 1 "income" "Old" "2023-12-31" 5 none none] 2) :=
  c3_midtxn_failure_rolls_back true _ _ 1 (by decide) (by decide)

theorem filter_nil_of_any_false {α : Type} {l : List α} {p : α → Bool}
    (h : l.any p = false) : l.filter p = [] := by
  simp only [List.any_eq_false] at h
  exact List.filter_eq_nil_iff.mpr h

theorem insertCand_of_not_insertable (st : DbState) (c : Candidate)
    (h : insertable c = false) : insertCand st c = st := by
  simp only [insertable, decide_eq_false_iff_not] at h
  push_neg at h
  unfold insertCand
  cases hA : candAmt c with
  | none => rfl
  | some a =>
    by_cases hskip : c.type = "" ∨ c.name = "" ∨ c.date = ""
    · simp [hskip]
    · push_neg at hskip
      have henum : ¬(c.type = "income" ∨ c.type = "expenditure") :=
        not_or.mpr (h (by simp [hA]) hskip.1 hskip.2.1 hskip.2.2)
      simp [hskip, insertOrIgnore, henum]

theorem insertCand_insertable (st : DbState) (c : Candidate) (a : ℚ)
    (hA : candAmt c = some a) (h : insertable c = true) :
    insertCand st c =
      if st.rows.any (keyPred (c.type, c.name, c.date, a)) = true then st
      else { rows := st.rows ++ [⟨st.nextId, c.type, c.name, c.date, a, c.createdBy, c.updatedBy⟩],
             nextId := st.nextId + 1 } := by
  simp only [insertable, decide_eq_true_eq] at h
  obtain ⟨-, ht, hn, hd, he⟩ := h
  unfold insertCand insertOrIgnore keyPred
  simp [hA, ht, hn, hd, he, rowKeyOf]

theorem firstMatch_cons_neg {c : Candidate} {k : TxKey} (rest : List Candidate)
    (h : candPred k c = false) : firstMatch (c :: rest) k = firstMatch rest k := by
  have hfind : (c :: rest).find? (candPred k) = rest.find? (candPred k) :=
    List.find?_cons_of_neg _ (by simp [h])
  simp [firstMatch, hfind]

theorem firstMatch_cons_pos {c : Candidate} {k : TxKey} (rest : List Candidate)
    (h : candPred k c = true) :
    firstMatch (c :: rest) k =
      [(c.type, c.name, c.date, k.2.2.2, c.createdBy, c.updatedBy)] := by
  have hfind : (c :: rest).find? (candPred k) = some c := List.find?_cons_of_pos _ h
  simp [firstMatch, hfind]

/-- Central characterization of the insert loop: for every key `k` of the
unique index, the rows stored under `k` after the loop are the rows that were
already there; when `k` was free, the first storable candidate with key `k`
(in submission order) contributes exactly one row carrying its data. -/
theorem runInserts_filter (cands : List Candidate) (st : DbState) (k : TxKey) :
    ((runInserts cands st).rows.filter (keyPred k)).map rowData =
      (st.rows.filter (keyPred k)).map rowData ++
        (if st.rows.any (keyPred k) = true then [] else firstMatch cands k) := by
  induction cands generalizing st with
  | nil =>
    cases h : st.rows.any (keyPred k) <;> simp [runInserts, firstMatch, h]
  | cons c rest ih =>
    have hstep : runInserts (c :: rest) st = runInserts rest (insertCand st c) := rfl
    by_cases hic : insertable c = true
    case neg =>
      have h0 : insertable c = false := by
        cases hb : insertable c
        · rfl
        · exact absurd hb hic
      have hpc : candPred k c = false := by simp [candPred, h0]
      rw [hstep, insertCand_of_not_insertable st c h0, ih st, firstMatch_cons_neg rest hpc]
    case pos =>
      obtain ⟨a, hA⟩ : ∃ a, candAmt c = some a := by
        have h1 := hic
        simp only [insertable, decide_eq_true_eq] at h1
        exact Option.isSome_iff_exists.mp h1.1
      have hkey : candKey c = some (c.type, c.name, c.date, a) := by simp [candKey, hA]
      rw [hstep, insertCand_insertable st c a hA hic]
      by_cases hdup : st.rows.any (keyPred (c.type, c.name, c.date, a)) = true
      · rw [if_pos hdup, ih st]
        by_cases hkk : (c.type, c.name, c.date, a) = k
        · subst hkk
          rw [if_pos hdup, if_pos hdup]
        · have hpc : candPred k c = false := by simp [candPred, hkey, hkk]
          rw [firstMatch_cons_neg rest hpc]
      · rw [if_neg hdup]
        have hdupF : st.rows.any (keyPred (c.type, c.name, c.date, a)) = false := by
          cases hb : st.rows.any (keyPred (c.type, c.name, c.date, a))
          · rfl
          · exact absurd hb hdup
        rw [ih { rows := st.rows ++ [⟨st.nextId, c.type, c.name, c.date, a,
              c.createdBy, c.updatedBy⟩], nextId := st.nextId + 1 }]
        by_cases hkk : (c.type, c.name, c.date, a) = k
        · subst hkk
          have hpc : candPred (c.type, c.name, c.date, a) c = true := by
            simp [candPred, hic, hkey]
          rw [firstMatch_cons_pos rest hpc]
          have hnil : st.rows.filter (keyPred (c.type, c.name, c.date, a)) = [] :=
            filter_nil_of_any_false hdupF
          simp [List.filter_append, List.any_append, hdupF, hnil, keyPred, rowKeyOf, rowData]
        · have hpc : candPred k c = false := by simp [candPred, hkey, hkk]
          rw [firstMatch_cons_neg rest hpc]
          have hnewk : keyPred k ⟨st.nextId, c.type, c.name, c.date, a,
              c.createdBy, c.updatedBy⟩ = false := by
            simp [keyPred, rowKeyOf, hkk]
          simp [List.filter_append, List.any_append, hnewk, List.filter_cons, List.any_cons]

theorem runInserts_empty (cands : List Candidate) (n : Nat) (k : TxKey) :
    ((runInserts cands (DbState.mk [] n)).rows.filter (keyPred k)).map rowData =
      firstMatch cands k := by
  simpa using runInserts_filter cands (DbState.mk [] n) k

theorem insertable_eq_specValid (c : Candidate) : insertable c = specValidCandidate c := by
  simp only [insertable, specValidCandidate, decide_eq_decide]
  constructor
  · rintro ⟨h1, h2, h3, h4, h5⟩
    exact ⟨h2, h5, h3, h4, h1⟩
  · rintro ⟨h1, h2, h3, h4, h5⟩
    exact ⟨h5, h1, h3, h4, h2⟩

theorem replaceAll_ok (allowEmpty : Bool) (cands : List Candidate) (st : DbState)
    (hguard : ¬(allowEmpty = false ∧ cands = [] ∧ 0 < st.rows.length)) :
    replaceAll allowEmpty cands st =
      (.okResp, runInserts cands (DbState.mk [] st.nextId)) := by
  simp [replaceAll, replaceAllFaulty, hguard, runOps_none, applyOps_txnOps]

/-- Claim C1: two candidates of one `replaceAll` batch that agree on the dedup
tuple `(type, name, date, amount)` produce exactly one stored row under that
tuple, namely one carrying the data of the first storable candidate with that
tuple in submission order; the later colliding insert is dropped without an
error and without aborting the batch (the call still answers `ok`). -/
theorem c1_conflict_first_wins (allowEmpty : Bool) (pre mid post : List Candidate)
    (ca cb : Candidate) (st : DbState) (k : TxKey)
    (hva : insertable ca = true) (hvb : insertable cb = true)
    (hka : candKey ca = some k) (hkb : candKey cb = some k) :
    (replaceAll allowEmpty (pre ++ ca :: mid ++ cb :: post) st).1 = .okResp ∧
    ∃ c0, (pre ++ ca :: mid ++ cb :: post).find? (candPred k) = some c0 ∧
      (((replaceAll allowEmpty (pre ++ ca :: mid ++ cb :: post) st).2.rows.filter
          (keyPred k)).map rowData) =
        [(c0.type, c0.name, c0.date, k.2.2.2, c0.createdBy, c0.updatedBy)] := by
  have hne : pre ++ ca :: mid ++ cb :: post ≠ [] := by simp
  have hguard : ¬(allowEmpty = false ∧ pre ++ ca :: mid ++ cb :: post = [] ∧
      0 < st.rows.length) := by
    rintro ⟨-, h2, -⟩
    exact hne h2
  have hmem : ca ∈ pre ++ ca :: mid ++ cb :: post := by simp
  have hpca : candPred k ca = true := by simp [candPred, hva, hka]
  have hfind : ((pre ++ ca :: mid ++ cb :: post).find? (candPred k)).isSome =
      true := List.find?_isSome.mpr ⟨ca, hmem, hpca⟩
  obtain ⟨c0, hc0⟩ := Option.isSome_iff_exists.mp hfind
  have hres := replaceAll_ok allowEmpty (pre ++ ca :: mid ++ cb :: post) st hguard
  refine ⟨by rw [hres], c0, hc0, ?_⟩
  rw [hres]
  have hrun := runInserts_empty (pre ++ ca :: mid ++ cb :: post) st.nextId k
  simp only [firstMatch] at hrun
  rw [hc0] at hrun
  exact hrun

/-- Witness for C1: the very same candidate submitted twice collapses to the
single row of the first occurrence. -/
theorem c1_conflict_first_wins_witness :
    (replaceAll true ([] ++ Candidate.mk "income" "Pay" "2024-01-01" (.num 1000)
        (some "alice") none :: [] ++ Candidate.mk "income" "Pay" "2024-01-01" (.num 1000)
        (some "alice") none :: []) (DbState.mk [] 1)).1 = .okResp ∧
    ∃ c0, ([] ++ Candidate.mk "income" "Pay" "2024-01-01" (.num 1000) (some "alice") none ::
        [] ++ Candidate.mk "income" "Pay" "2024-01-01" (.num 1000) (some "alice") none ::
        []).find? (candPred ("income", "Pay", "2024-01-01", 1000)) = some c0 ∧
      (((replaceAll true ([] ++ Candidate.mk "income" "Pay" "2024-01-01" (.num 1000)
          (some "alice") none :: [] ++ Candidate.mk "income" "Pay" "2024-01-01" (.num 1000)
          (some "alice") none :: []) (DbState.mk [] 1)).2.rows.filter
          (keyPred ("income", "Pay", "2024-01-01", 1000))).map rowData) =
        [(c0.type, c0.name, c0.date, ("income", "Pay", "2024-01-01",
          (1000 : ℚ)).2.2.2, c0.createdBy, c0.updatedBy)] :=
  c1_conflict_first_wins true [] [] []
    (Candidate.mk "income" "Pay" "2024-01-01" (.num 1000) (some "alice") none)
    (Candidate.mk "income" "Pay" "2024-01-01" (.num 1000) (some "alice") none)
    (DbState.mk [] 1) ("income", "Pay", "2024-01-01", 1000)
    (by decide) (by decide) (by decide) (by decide)

theorem stored_key_iff_firstMatch (cands : List Candidate) (n : Nat) (k : TxKey) :
    (∃ r ∈ (runInserts cands (DbState.mk [] n)).rows, rowKeyOf r = k) ↔
      ((cands.find? (candPred k)).isSome = true) := by
  constructor
  · rintro ⟨r, hr, hkr⟩
    have hmem : r ∈ (runInserts cands (DbState.mk [] n)).rows.filter (keyPred k) :=
      List.mem_filter.mpr ⟨hr, by simp [keyPred, hkr]⟩
    cases hf : cands.find? (candPred k) with
    | some c => simp
    | none =>
      exfalso
      have hmap : ((runInserts cands (DbState.mk [] n)).rows.filter (keyPred k)).map
          rowData = [] := by
        rw [runInserts_empty]
        simp [firstMatch, hf]
      rw [List.map_eq_nil_iff.mp hmap] at hmem
      exact absurd hmem (List.not_mem_nil r)
  · intro h
    obtain ⟨c, hc⟩ := Option.isSome_iff_exists.mp h
    have hmap : ((runInserts cands (DbState.mk [] n)).rows.filter (keyPred k)).map
        rowData = [(c.type, c.name, c.date, k.2.2.2, c.createdBy, c.updatedBy)] := by
      rw [runInserts_empty]
      simp only [firstMatch]
      rw [hc]
    cases hfil : (runInserts cands (DbState.mk [] n)).rows.filter (keyPred k) with
    | nil => rw [hfil] at hmap; simp at hmap
    | cons r t =>
      have hr : r ∈ (runInserts cands (DbState.mk [] n)).rows.filter (keyPred k) := by
        rw [hfil]
        exact List.mem_cons_self r t
      have hr2 := List.mem_filter.mp hr
      exact ⟨r, hr2.1, by simpa [keyPred] using hr2.2⟩

/-- Claim C4: an accepted `replaceAll` batch stores exactly the keys of the
candidates that pass validation (type non-empty and one of the two enumerated
values, name and date non-empty, amount coercible to a finite number after
currency-symbol stripping), modulo the first-wins dedup of the unique index;
every candidate failing validation is silently skipped and never errors the
batch (the call answers `ok`). -/
theorem c4_validation_filter (allowEmpty : Bool) (cands : List Candidate) (st : DbState)
    (hguard : ¬(allowEmpty = false ∧ cands = [] ∧ 0 < st.rows.length)) :
    (replaceAll allowEmpty cands st).1 = .okResp ∧
    ∀ k : TxKey,
      (∃ r ∈ (replaceAll allowEmpty cands st).2.rows, rowKeyOf r = k) ↔
        (∃ c ∈ cands, specValidCandidate c = true ∧ candKey c = some k) := by
  have hres := replaceAll_ok allowEmpty cands st hguard
  refine ⟨by rw [hres], ?_⟩
  intro k
  rw [hres]
  rw [stored_key_iff_firstMatch cands st.nextId k, List.find?_isSome]
  constructor
  · rintro ⟨c, hc, hp⟩
    simp only [candPred, Bool.and_eq_true, decide_eq_true_eq] at hp
    exact ⟨c, hc, by rw [← insertable_eq_specValid]; exact hp.1, hp.2⟩
  · rintro ⟨c, hc, hv, hk⟩
    exact ⟨c, hc, by
      simp only [candPred, Bool.and_eq_true, decide_eq_true_eq]
      exact ⟨by rw [insertable_eq_specValid]; exact hv, hk⟩⟩

/-- Witness for C4: a two-candidate batch with one invalid candidate. -/
theorem c4_validation_filter_witness :
    (replaceAll false [Candidate.mk "income" "Pay" "2024-01-01" (.num 1000) none none,
        Candidate.mk "income" "" "2024-01-02" (.num 5) none none]
      (DbState.mk [] 1)).1 = .okResp ∧
    ∀ k : TxKey,
      (∃ r ∈ (replaceAll false [Candidate.mk "income" "Pay" "2024-01-01" (.num 1000) none none,
          Candidate.mk "income" "" "2024-01-02" (.num 5) none none]
        (DbState.mk [] 1)).2.rows, rowKeyOf r = k) ↔
        (∃ c ∈ [Candidate.mk "income" "Pay" "2024-01-01" (.num 1000) none none,
          Candidate.mk "income" "" "2024-01-02" (.num 5) none none],
          specValidCandidate c = true ∧ candKey c = some k) :=
  c4_validation_filter false
    [Candidate.mk "income" "Pay" "2024-01-01" (.num 1000) none none,
     Candidate.mk "income" "" "2024-01-02" (.num 5) none none]
    (DbState.mk [] 1) (by decide)

/-- Claim C5: `GET /api/transactions` returns the stored rows ordered by date
descending then id descending, and `GET /api/transactions.csv` reads the same
rows ordered by date ascending then id ascending: both query results are
permutations of the stored set, sorted by their respective `ORDER BY`. -/
theorem c5_query_orderings (rows : List Row) :
    (listTransactions rows).Perm rows ∧
    (listTransactions rows).Sorted listLe ∧
    (exportTransactions rows).Perm rows ∧
    (exportTransactions rows).Sorted exportLe :=
  ⟨List.perm_insertionSort listLe rows, List.sorted_insertionSort listLe rows,
   List.perm_insertionSort exportLe rows, List.sorted_insertionSort exportLe rows⟩

theorem foldlMin_mem (x : Nat) (xs : List Nat) : xs.foldl Nat.min x ∈ x :: xs := by
  induction xs generalizing x with
  | nil => simp
  | cons y ys ih =>
    simp only [List.foldl_cons]
    rcases List.mem_cons.mp (ih (Nat.min x y)) with h | h
    · rw [h]
      by_cases hxy : x ≤ y <;> simp [Nat.min_def, hxy]
    · exact List.mem_cons_of_mem _ (List.mem_cons_of_mem _ h)

theorem foldlMin_le (x : Nat) (xs : List Nat) : ∀ y ∈ x :: xs, xs.foldl Nat.min x ≤ y := by
  induction xs generalizing x with
  | nil =>
    intro y hy
    simp only [List.mem_cons, List.not_mem_nil, or_false] at hy
    simp [List.foldl_nil, hy]
  | cons z zs ih =>
    intro y hy
    simp only [List.foldl_cons]
    rcases List.mem_cons.mp hy with h | h
    · subst h
      exact le_trans (ih (Nat.min y z) _ (List.mem_cons_self _ _)) (Nat.min_le_left y z)
    · rcases List.mem_cons.mp h with h2 | h2
      · subst h2
        exact le_trans (ih (Nat.min x y) _ (List.mem_cons_self _ _)) (Nat.min_le_right x y)
      · exact ih (Nat.min x z) _ (List.mem_cons_of_mem _ h2)

theorem groupMinId_mem (rows : List Row) (k : TxKey)
    (h : ∃ r ∈ rows, rowKeyOf r = k) :
    groupMinId rows k ∈ (rows.filter (fun r => decide (rowKeyOf r = k))).map Row.id := by
  obtain ⟨r, hr, hk⟩ := h
  have hmem : r.id ∈ (rows.filter (fun r => decide (rowKeyOf r = k))).map Row.id :=
    List.mem_map_of_mem _ (List.mem_filter.mpr ⟨hr, by simp [hk]⟩)
  unfold groupMinId
  cases hG : (rows.filter (fun r => decide (rowKeyOf r = k))).map Row.id with
  | nil =>
    rw [hG] at hmem
    exact absurd hmem (List.not_mem_nil _)
  | cons i is =>
    rw [hG] at hmem
    exact foldlMin_mem i is

theorem groupMinId_le (rows : List Row) (k : TxKey) (r : Row) (hr : r ∈ rows)
    (hk : rowKeyOf r = k) : groupMinId rows k ≤ r.id := by
  have hmem : r.id ∈ (rows.filter (fun r => decide (rowKeyOf r = k))).map Row.id :=
    List.mem_map_of_mem _ (List.mem_filter.mpr ⟨hr, by simp [hk]⟩)
  unfold groupMinId
  cases hG : (rows.filter (fun r => decide (rowKeyOf r = k))).map Row.id with
  | nil =>
    rw [hG] at hmem
    exact absurd hmem (List.not_mem_nil _)
  | cons i is =>
    rw [hG] at hmem
    exact foldlMin_le i is r.id hmem

theorem mem_minIdRows_iff (rows : List Row) (hids : (rows.map Row.id).Nodup)
    (r : Row) (hr : r ∈ rows) :
    r.id ∈ minIdRows rows ↔ r.id = groupMinId rows (rowKeyOf r) := by
  constructor
  · intro h
    obtain ⟨k1, hk1, hgm⟩ := List.mem_map.mp h
    have hk1m : k1 ∈ rows.map rowKeyOf := List.mem_dedup.mp hk1
    obtain ⟨r1, hr1, hkey1⟩ := List.mem_map.mp hk1m
    have hmin := groupMinId_mem rows k1 ⟨r1, hr1, hkey1⟩
    obtain ⟨r2, hr2, hid2⟩ := List.mem_map.mp hmin
    have hr2f := List.mem_filter.mp hr2
    have hr2rows : r2 ∈ rows := hr2f.1
    have hr2key : rowKeyOf r2 = k1 := by
      have := hr2f.2
      simpa using this
    have hsame : r2 = r :=
      List.inj_on_of_nodup_map hids hr2rows hr (by rw [hid2, hgm])
    rw [← hsame, hr2key]
    exact hid2
  · intro h
    have hkm : rowKeyOf r ∈ rows.map rowKeyOf := List.mem_map_of_mem _ hr
    have : groupMinId rows (rowKeyOf r) ∈ minIdRows rows :=
      List.mem_map_of_mem _ (List.mem_dedup.mpr hkm)
    rw [h]
    exact this

theorem filter_eq_singleton {α : Type} {l : List α} {p : α → Bool} {a : α}
    (hnd : l.Nodup) (ha : a ∈ l) (hpa : p a = true)
    (huniq : ∀ b ∈ l, p b = true → b = a) : l.filter p = [a] := by
  induction l with
  | nil => cases ha
  | cons x xs ih =>
    have hnd2 := List.nodup_cons.mp hnd
    rcases List.mem_cons.mp ha with h | h
    · subst h
      rw [List.filter_cons_of_pos hpa]
      have hnil : xs.filter p = [] := by
        apply List.filter_eq_nil_iff.mpr
        intro b hb hpb
        have := huniq b (List.mem_cons_of_mem _ hb) hpb
        rw [this] at hb
        exact hnd2.1 hb
      rw [hnil]
    · have hpx : ¬ p x = true := by
        intro hpx
        have := huniq x (List.mem_cons_self _ _) hpx
        rw [this] at hnd2
        exact hnd2.1 h
      rw [List.filter_cons_of_neg hpx]
      exact ih hnd2.2 h (fun b hb hpb => huniq b (List.mem_cons_of_mem _ hb) hpb)

theorem dedupe_filter_key (rows : List Row) (hids : (rows.map Row.id).Nodup)
    (k : TxKey) (hk : k ∈ rows.map rowKeyOf) :
    ((dedupeRows rows).filter (fun r => decide (rowKeyOf r = k))).map Row.id =
      [groupMinId rows k] := by
  obtain ⟨r0, hr0, hk0⟩ := List.mem_map.mp hk
  have hnd : rows.Nodup := List.Nodup.of_map Row.id hids
  -- the surviving row of the group
  obtain ⟨rm, hrm, hidm⟩ := List.mem_map.mp (groupMinId_mem rows k ⟨r0, hr0, hk0⟩)
  have hrmf := List.mem_filter.mp hrm
  have hrmrows : rm ∈ rows := hrmf.1
  have hrmkey : rowKeyOf rm = k := by simpa using hrmf.2
  have hrmmin : rm.id = groupMinId rows k := hidm
  have hstep : (dedupeRows rows).filter (fun r => decide (rowKeyOf r = k)) = [rm] := by
    unfold dedupeRows
    rw [List.filter_filter]
    apply filter_eq_singleton hnd hrmrows
    · simp only [Bool.and_eq_true, decide_eq_true_eq]
      refine ⟨hrmkey, ?_⟩
      rw [(mem_minIdRows_iff rows hids rm hrmrows)]
      rw [hrmkey, hrmmin]
    · intro b hb hpb
      simp only [Bool.and_eq_true, decide_eq_true_eq] at hpb
      obtain ⟨hbk, hbmin⟩ := hpb
      have hbmin2 : b.id = groupMinId rows (rowKeyOf b) :=
        (mem_minIdRows_iff rows hids b hb).mp hbmin
      rw [hbk] at hbmin2
      exact List.inj_on_of_nodup_map hids hb hrmrows (by rw [hbmin2, hrmmin])
  rw [hstep, List.map_cons, List.map_nil, hrmmin]

theorem dedupe_keys_nodup (rows : List Row) (hids : (rows.map Row.id).Nodup) :
    ((dedupeRows rows).map rowKeyOf).Nodup := by
  have hnd : rows.Nodup := List.Nodup.of_map Row.id hids
  apply List.Nodup.map_on
  · intro x hx y hy hxy
    have hxf := List.mem_filter.mp hx
    have hyf := List.mem_filter.mp hy
    have hxm : x.id = groupMinId rows (rowKeyOf x) :=
      (mem_minIdRows_iff rows hids x hxf.1).mp (by simpa using hxf.2)
    have hym : y.id = groupMinId rows (rowKeyOf y) :=
      (mem_minIdRows_iff rows hids y hyf.1).mp (by simpa using hyf.2)
    rw [hxy] at hxm
    exact List.inj_on_of_nodup_map hids hxf.1 hyf.1 (by rw [hxm, hym])
  · exact hnd.filter _

/-- Claim C6: when unique-index creation fails because the table holds rows
duplicated on `(type,name,date,amount)`, the dedupe-and-retry block deletes the
duplicates keeping exactly the minimum-id row of each group, retries the
creation once (two attempts in total), and that retry succeeds, so the block
ends with the index created and exactly one surviving row per duplicate group;
the block always returns instead of failing startup. -/
theorem c6_dedupe_and_retry (rows : List Row)
    (hids : (rows.map Row.id).Nodup)
    (hdup : ¬ (rows.map rowKeyOf).Nodup) :
    ensureUniqueIndex rows = (dedupeRows rows, .created, 2) ∧
    (∀ k ∈ rows.map rowKeyOf,
      ((dedupeRows rows).filter (fun r => decide (rowKeyOf r = k))).map Row.id =
        [groupMinId rows k]) ∧
    (∀ k ∈ rows.map rowKeyOf, ∀ r ∈ rows, rowKeyOf r = k → groupMinId rows k ≤ r.id) := by
  refine ⟨?_, fun k hk => dedupe_filter_key rows hids k hk,
    fun k _ r hr hk => groupMinId_le rows k r hr hk⟩
  have h1 : createIndexOk rows = false := by
    simp [createIndexOk, hdup]
  have h2 : createIndexOk (dedupeRows rows) = true := by
    simp [createIndexOk, dedupe_keys_nodup rows hids]
  unfold ensureUniqueIndex
  rw [h1]
  simp [h2]

/-- Witness for C6: two rows duplicated on the dedup tuple plus one singleton. -/
theorem c6_dedupe_and_retry_witness :
    ensureUniqueIndex [Row.mk 1 "income" "Pay" "2024-01-01" 1000 none none,
        Row.mk 2 "income" "Pay" "2024-01-01" 1000 none none,
        Row.mk 3 "expenditure" "Rent" "2024-01-02" 500 none none] =
      (dedupeRows [Row.mk 1 "income" "Pay" "2024-01-01" 1000 none none,
        Row.mk 2 "income" "Pay" "2024-01-01" 1000 none none,
        Row.mk 3 "expenditure" "Rent" "2024-01-02" 500 none none], .created, 2) ∧
    (∀ k ∈ [Row.mk 1 "income" "Pay" "2024-01-01" 1000 none none,
        Row.mk 2 "income" "Pay" "2024-01-01" 1000 none none,
        Row.mk 3 "expenditure" "Rent" "2024-01-02" 500 none none].map rowKeyOf,
      ((dedupeRows [Row.mk 1 "income" "Pay" "2024-01-01" 1000 none none,
        Row.mk 2 "income" "Pay" "2024-01-01" 1000 none none,
        Row.mk 3 "expenditure" "Rent" "2024-01-02" 500 none none]).filter
          (fun r => decide (rowKeyOf r = k))).map Row.id =
        [groupMinId [Row.mk 1 "income" "Pay" "2024-01-01" 1000 none none,
          Row.mk 2 "income" "Pay" "2024-01-01" 1000 none none,
          Row.mk 3 "expenditure" "Rent" "2024-01-02" 500 none none] k]) ∧
    (∀ k ∈ [Row.mk 1 "income" "Pay" "2024-01-01" 1000 none none,
        Row.mk 2 "income" "Pay" "2024-01-01" 1000 none none,
        Row.mk 3 "expenditure" "Rent" "2024-01-02" 500 none none].map rowKeyOf,
      ∀ r ∈ [Row.mk 1 "income" "Pay" "2024-01-01" 1000 none none,
        Row.mk 2 "income" "Pay" "2024-01-01" 1000 none none,
        Row.mk 3 "expenditure" "Rent" "2024-01-02" 500 none none], rowKeyOf r = k →
        groupMinId [Row.mk 1 "income" "Pay" "2024-01-01" 1000 none none,
          Row.mk 2 "income" "Pay" "2024-01-01" 1000 none none,
          Row.mk 3 "expenditure" "Rent" "2024-01-02" 500 none none] k ≤ r.id) :=
  c6_dedupe_and_retry
    [Row.mk 1 "income" "Pay" "2024-01-01" 1000 none none,
     Row.mk 2 "income" "Pay" "2024-01-01" 1000 none none,
     Row.mk 3 "expenditure" "Rent" "2024-01-02" 500 none none]
    (by decide) (by decide)

theorem importOps_marker (dataLines : List String) (now : String) (st : ImpDb) :
    (applyOps (importOps dataLines now) st).marker = some now := by
  unfold importOps applyOps
  rw [List.foldl_cons, List.foldl_append]
  simp [markCsvImportRun]

/-- Claim C7: after a successful `importOnce`, a later `importOnce(force=false)`
short-circuits with a skipped outcome whose reason mentions the prior
completion, changes nothing (no new rows), and the endpoint maps it to 409;
the marker is part of the persisted state, so this holds for any later call. -/
theorem c7_import_idempotent (csv csv2 : Option String) (now now2 errMsg errMsg2 : String)
    (fa2 : Option Nat) (st st2 : ImpDb) (n : Nat)
    (h1 : oneTimeCsvImport false csv now errMsg none st = (.imported n, st2)) :
    oneTimeCsvImport false csv2 now2 errMsg2 fa2 st2 =
      (.skipped "CSV import already completed previously.", st2) ∧
    importHttpStatus (oneTimeCsvImport false csv2 now2 errMsg2 fa2 st2).1 = 409 := by
  have hmark : st2.marker.isSome = true := by
    simp only [oneTimeCsvImport] at h1
    by_cases hm : hasCsvImportRun st = true
    · rw [if_pos ⟨trivial, hm⟩] at h1
      simp at h1
    · rw [if_neg (fun hand => hm hand.2)] at h1
      cases csv with
      | none => simp at h1
      | some raw =>
        simp only [] at h1
        by_cases hl : (splitLines (jsTrim raw)).length ≤ 2
        · rw [if_pos hl] at h1
          simp at h1
        · rw [if_neg hl, runOps_none] at h1
          simp only [Prod.mk.injEq] at h1
          rw [← h1.2, importOps_marker]
          rfl
  have hskip : oneTimeCsvImport false csv2 now2 errMsg2 fa2 st2 =
      (.skipped "CSV import already completed previously.", st2) := by
    simp only [oneTimeCsvImport, hasCsvImportRun]
    rw [if_pos ⟨trivial, hmark⟩]
  refine ⟨hskip, ?_⟩
  rw [hskip]
  show importHttpStatus (.skipped "CSV import already completed previously.") = 409
  decide

/-- Witness for C7: a successful one-line import followed by a second call. -/
theorem c7_import_idempotent_witness :
    oneTimeCsvImport false none "T1" "y" none
        (ImpDb.mk [ImpRow.mk 1 "expenditure" "Food" "2024-01-01" 5,
          ImpRow.mk 2 "income" "Wage" "2024-01-02" 7] 3 (some "T0")) =
      (.skipped "CSV import already completed previously.",
        ImpDb.mk [ImpRow.mk 1 "expenditure" "Food" "2024-01-01" 5,
          ImpRow.mk 2 "income" "Wage" "2024-01-02" 7] 3 (some "T0")) ∧
    importHttpStatus (oneTimeCsvImport false none "T1" "y" none
        (ImpDb.mk [ImpRow.mk 1 "expenditure" "Food" "2024-01-01" 5,
          ImpRow.mk 2 "income" "Wage" "2024-01-02" 7] 3 (some "T0"))).1 = 409 :=
  c7_import_idempotent (some "H1\nH2\nFood,2024-01-01,5,,,Wage,2024-01-02,7") none
    "T0" "T1" "x" "y" none (ImpDb.mk [] 1 none)
    (ImpDb.mk [ImpRow.mk 1 "expenditure" "Food" "2024-01-01" 5,
      ImpRow.mk 2 "income" "Wage" "2024-01-02" 7] 3 (some "T0")) 2
    (by decide)

theorem importFailed_reason_ne (e : String) :
    ("Import failed: " ++ e) ≠ "CSV import already completed previously." := by
  intro h
  have h2 := congrArg String.data h
  rw [String.data_append] at h2
  have h3 := congrArg (fun l => l.take ("Import failed: " : String).data.length) h2
  simp only at h3
  rw [List.take_left] at h3
  exact absurd h3 (by decide)

/-- Claim C10: the idempotency marker is written inside the import transaction,
so a fault at any statement of a first-time import (delete, any insert, the
marker write or the commit) rolls back rows and marker together: the state is
unchanged and still has no marker, and no later `importOnce(force=false)` on
that state can short-circuit with the already-completed outcome. -/
theorem c10_failed_import_leaves_no_marker (raw now errMsg : String) (k : Nat) (st : ImpDb)
    (hm : st.marker = none)
    (hlines : 2 < (splitLines (jsTrim raw)).length)
    (hk : k ≤ (importOps ((splitLines (jsTrim raw)).drop 2) now).length) :
    oneTimeCsvImport false (some raw) now errMsg (some k) st =
      (.skipped ("Import failed: " ++ errMsg), st) ∧
    (oneTimeCsvImport false (some raw) now errMsg (some k) st).2.marker = none ∧
    ∀ csv2 now2 errMsg2 fa2,
      (oneTimeCsvImport false csv2 now2 errMsg2 fa2 st).1 ≠
        .skipped "CSV import already completed previously." := by
  have hnoskip : hasCsvImportRun st = true → False := by
    simp [hasCsvImportRun, hm]
  have hrun : oneTimeCsvImport false (some raw) now errMsg (some k) st =
      (.skipped ("Import failed: " ++ errMsg), st) := by
    simp only [oneTimeCsvImport]
    rw [if_neg (fun hand => hnoskip hand.2)]
    rw [if_neg (by omega), runOps_fault _ _ _ hk]
  refine ⟨hrun, by rw [hrun]; exact hm, ?_⟩
  intro csv2 now2 errMsg2 fa2
  simp only [oneTimeCsvImport]
  rw [if_neg (fun hand => hnoskip hand.2)]
  cases csv2 with
  | none => simp
  | some raw2 =>
    simp only []
    by_cases hl : (splitLines (jsTrim raw2)).length ≤ 2
    · rw [if_pos hl]
      simp
    · rw [if_neg hl]
      cases hro : runOps (importOps ((splitLines (jsTrim raw2)).drop 2) now2) fa2 st with
      | some stN => simp
      | none => simp [importFailed_reason_ne]

/-- Witness for C10: the fault hits the first insert of a first-time import. -/
theorem c10_failed_import_leaves_no_marker_witness :
    oneTimeCsvImport false (some "H1\nH2\nFood,2024-01-01,5,,,Wage,2024-01-02,7") "T0" "boom"
        (some 1) (ImpDb.mk [] 1 none) =
      (.skipped ("Import failed: " ++ "boom"), ImpDb.mk [] 1 none) ∧
    (oneTimeCsvImport false (some "H1\nH2\nFood,2024-01-01,5,,,Wage,2024-01-02,7") "T0" "boom"
        (some 1) (ImpDb.mk [] 1 none)).2.marker = none ∧
    ∀ csv2 now2 errMsg2 fa2,
      (oneTimeCsvImport false csv2 now2 errMsg2 fa2 (ImpDb.mk [] 1 none)).1 ≠
        .skipped "CSV import already completed previously." :=
  c10_failed_import_leaves_no_marker "H1\nH2\nFood,2024-01-01,5,,,Wage,2024-01-02,7" "T0"
    "boom" 1 (ImpDb.mk [] 1 none) rfl (by decide) (by decide)

theorem foldl_concatLines {β : Type} (f : β → String) (xs : List β) (init : String) :
    xs.foldl (fun acc x => acc ++ f x ++ "\n") init = init ++ concatLines (xs.map f) := by
  induction xs generalizing init with
  | nil => simp [concatLines]
  | cons x xs ih =>
    simp only [List.foldl_cons, List.map_cons, concatLines]
    rw [ih]
    simp [String.append_assoc]

/-- Claim C8: the snapshot is exactly the two fixed header lines followed by
one line per index up to the longer of the two partitions (expenditures by
ascending id on the left, incomes on the right); indexes past the shorter
partition render its side as all-blank fields. -/
theorem c8_dual_csv_shape (rows : List Row) :
    regenerateDualCsv rows = dualHeader1 ++ dualHeader2 ++ concatLines (dualRows rows) ∧
    (dualRows rows).length = Nat.max (expList rows).length (incList rows).length ∧
    (∀ i, i < Nat.max (expList rows).length (incList rows).length →
      (dualRows rows)[i]? = some (expPart (expList rows)[i]? ++ incPart (incList rows)[i]?)) ∧
    expPart none = ",,,,," ∧ incPart none = ",,,,,,," := by
  refine ⟨?_, by simp [dualRows], ?_, rfl, rfl⟩
  · simp only [regenerateDualCsv, dualRows, expList, incList]
    rw [foldl_concatLines
      (fun i => expPart ((sortByIdAsc rows).filter (fun r => r.type == "expenditure"))[i]? ++
        incPart ((sortByIdAsc rows).filter (fun r => r.type == "income"))[i]?)]
  · intro i hi
    simp [dualRows, List.getElem?_range, hi]

theorem splitOnChar_length (sep : Char) (cs : List Char) :
    (splitOnChar sep cs).length = cs.count sep + 1 := by
  induction cs with
  | nil => simp [splitOnChar]
  | cons c rest ih =>
    unfold splitOnChar
    by_cases h : c = sep
    · simp [h, ih]
    · cases hs : splitOnChar sep rest with
      | nil =>
        rw [hs] at ih
        simp at ih
      | cons g gs =>
        rw [hs] at ih
        simp only [List.length_cons] at ih
        simp [h, ih, List.count_cons]

theorem digitChar_ne_comma (n : Nat) : digitChar n ≠ ',' := by
  have h : n % 10 < 10 := Nat.mod_lt _ (by decide)
  unfold digitChar
  set m := n % 10 with hm
  interval_cases m <;> decide

theorem natDecAux_no_comma (fuel n : Nat) : ',' ∉ natDecAux fuel n := by
  induction fuel generalizing n with
  | zero => simp [natDecAux]
  | succ fuel ih =>
    unfold natDecAux
    by_cases h : n < 10
    · simp only [if_pos h, List.mem_singleton]
      exact fun he => digitChar_ne_comma n he.symm
    · simp only [if_neg h, List.mem_append, List.mem_singleton]
      rintro (hmem | he)
      · exact ih _ hmem
      · exact digitChar_ne_comma _ he.symm

theorem fracDec_no_comma (fuel r d : Nat) : ',' ∉ fracDec fuel r d := by
  induction fuel generalizing r with
  | zero => simp [fracDec]
  | succ fuel ih =>
    cases r with
    | zero => simp [fracDec]
    | succ r =>
      simp only [fracDec, List.mem_cons]
      rintro (he | hmem)
      · exact digitChar_ne_comma _ he.symm
      · exact ih _ hmem

theorem commaCount_append (s t : String) : commaCount (s ++ t) = commaCount s + commaCount t := by
  simp [commaCount, String.data_append, List.count_append]

theorem commaCount_replaceCommas (s : String) : commaCount (replaceCommas s) = 0 := by
  simp only [replaceCommas, commaCount]
  rw [List.count_eq_zero]
  intro hmem
  obtain ⟨c, -, hc⟩ := List.mem_map.mp hmem
  by_cases h : c = ','
  · rw [if_pos h] at hc
    exact absurd hc (by decide)
  · rw [if_neg h] at hc
    exact h hc

theorem commaCount_numToCsv (q : ℚ) : commaCount (numToCsv q) = 0 := by
  simp only [numToCsv]
  rw [commaCount_append, commaCount_append]
  have h1 : commaCount (if q < 0 then "-" else "") = 0 := by
    split <;> decide
  have h2 : commaCount (String.mk (natDec (q.num.natAbs / q.den))) = 0 :=
    List.count_eq_zero.mpr (natDecAux_no_comma _ _)
  have h3 : commaCount (if (fracDec 20 (q.num.natAbs % q.den) q.den).isEmpty then ""
      else "." ++ String.mk (fracDec 20 (q.num.natAbs % q.den) q.den)) = 0 := by
    split
    · decide
    · rw [commaCount_append]
      have h4 : commaCount (String.mk (fracDec 20 (q.num.natAbs % q.den) q.den)) = 0 :=
        List.count_eq_zero.mpr (fracDec_no_comma _ _ _)
      rw [h4]
      decide
  rw [h1, h2, h3]

/-- Claim C9: the CSV export replaces every comma of a stored name by a space
before emitting the line, so the data line splits into exactly as many
comma-separated fields as the header whatever the name holds, while the type,
date, amount and attribution fields are emitted unmodified. -/
theorem c9_export_commas (r : Row)
    (ht : commaCount r.type = 0) (hd : commaCount r.date = 0)
    (hc : commaCount (r.created_by.getD "") = 0)
    (hu : commaCount (r.updated_by.getD "") = 0) :
    commaCount (replaceCommas r.name) = 0 ∧
    (splitOnChar ',' (exportCsvLine r).data).length =
      (splitOnChar ',' exportCsvHeader.data).length ∧
    exportCsvLine r = r.type ++ "," ++ replaceCommas r.name ++ "," ++ r.date ++ "," ++
      numToCsv r.amount ++ "," ++ r.created_by.getD "" ++ "," ++ r.updated_by.getD "" := by
  refine ⟨commaCount_replaceCommas r.name, ?_, rfl⟩
  rw [splitOnChar_length, splitOnChar_length]
  show commaCount (exportCsvLine r) + 1 = commaCount exportCsvHeader + 1
  simp only [exportCsvLine, commaCount_append, ht, hd, hc, hu, commaCount_replaceCommas,
    commaCount_numToCsv]
  decide

/-- Witness for C9 at a row whose name contains a comma. -/
theorem c9_export_commas_witness :
    commaCount (replaceCommas (Row.mk 1 "income" "a,b" "2024-01-01" 5 (some "u") none).name)
      = 0 ∧
    (splitOnChar ','
        (exportCsvLine (Row.mk 1 "income" "a,b" "2024-01-01" 5 (some "u") none)).data).length =
      (splitOnChar ',' exportCsvHeader.data).length ∧
    exportCsvLine (Row.mk 1 "income" "a,b" "2024-01-01" 5 (some "u") none) =
      (Row.mk 1 "income" "a,b" "2024-01-01" 5 (some "u") none).type ++ "," ++
      replaceCommas (Row.mk 1 "income" "a,b" "2024-01-01" 5 (some "u") none).name ++ "," ++
      (Row.mk 1 "income" "a,b" "2024-01-01" 5 (some "u") none).date ++ "," ++
      numToCsv (Row.mk 1 "income" "a,b" "2024-01-01" 5 (some "u") none).amount ++ "," ++
      (Row.mk 1 "income" "a,b" "2024-01-01" 5 (some "u") none).created_by.getD "" ++ "," ++
      (Row.mk 1 "income" "a,b" "2024-01-01" 5 (some "u") none).updated_by.getD "" :=
  c9_export_commas (Row.mk 1 "income" "a,b" "2024-01-01" 5 (some "u") none)
    (by decide) (by decide) (by decide) (by decide)
